import Mathlib

/-!
Shallow embedding of `simulation.py` (family-business partnership simulator).

The random stream of `numpy.random.default_rng(seed)` is modelled as a
function `rng : Nat → ℚ` together with a cursor `idx` into it: the k-th
stochastic decision of a run reads `rng k`.  A `rng.random()` call reads the
value directly (a uniform variate); a `rng.normal(m, sd)` call reads the
underlying standard-normal variate `u = rng k` and yields `m + sd * u`.
Python `int()` on a float truncates toward zero, which `pyInt` models on ℚ.
-/

/-! ### Structural lemmas about the tick pipeline -/

inductive Status
  | child
  | trainee
  | partner_active
  | partner_emeritus
  | washout
  | deceased
deriving DecidableEq, Repr

inductive Sex
  | M
  | F
deriving DecidableEq, Repr

structure Config where
  start_year : Int
  horizon_years : Nat
  fertility_mean : ℚ
  fertility_age_start : Int
  fertility_age_end : Int
  mortality_mean : ℚ
  mortality_sd : ℚ
  sex_ratio : ℚ
  invite_prob : ℚ
  promotion_prob : ℚ
  probation_min : Int
  probation_max : Int
  age_partner_to_emeritus : Int
  age_econ_rights_end : Int
  eligible_parent_status : List Status

/-- The defaults of `Config` in `simulation.py` (the `seed` field is the
stream abstracted as `rng`, so it does not appear here). -/
def defaultConfig : Config where
  start_year := 2025
  horizon_years := 100
  fertility_mean := 8/5
  fertility_age_start := 28
  fertility_age_end := 42
  mortality_mean := 85
  mortality_sd := 8
  sex_ratio := 1/2
  invite_prob := 3/5
  promotion_prob := 7/10
  probation_min := 6
  probation_max := 9
  age_partner_to_emeritus := 55
  age_econ_rights_end := 65
  eligible_parent_status := [Status.partner_active, Status.partner_emeritus]

structure Person where
  id : Nat
  birth_year : Int
  generation : Int
  status : Status
  parent_ids : List Nat
  death_year : Option Int
  partner_since : Option Int
  emeritus_since : Option Int
  econ_rights_end_year : Option Int
  sex : Sex
deriving DecidableEq, Repr

/-- Python `int()` applied to a real value: truncation toward zero. -/
def pyInt (q : ℚ) : Int := if 0 ≤ q then ⌊q⌋ else ⌈q⌉

/-- Phase 1 of `Simulation._tick` (death draw, death check, econ-rights
lapse, active→emeritus), for one person; returns the updated person and the
stream cursor after this person. -/
def phase1Person (cfg : Config) (year : Int) (rng : Nat → ℚ) (idx : Nat) (p : Person) :
    Person × Nat :=
  if p.status = Status.deceased then (p, idx)
  else
    let age := year - p.birth_year
    let dp : Int × Nat :=
      match p.death_year with
      | none => (p.birth_year + pyInt (cfg.mortality_mean + cfg.mortality_sd * rng idx), idx + 1)
      | some d => (d, idx)
    let p1 := { p with death_year := some dp.1 }
    let p2 := if dp.1 ≤ year then { p1 with status := Status.deceased } else p1
    let p3 :=
      if (p2.status = Status.partner_active ∨ p2.status = Status.partner_emeritus) ∧
          p2.econ_rights_end_year = none ∧ cfg.age_econ_rights_end ≤ age then
        { p2 with econ_rights_end_year := some year }
      else p2
    let p4 :=
      if p3.status = Status.partner_active ∧ cfg.age_partner_to_emeritus ≤ age then
        { p3 with status := Status.partner_emeritus, emeritus_since := some year }
      else p3
    (p4, dp.2)

def phase1 (cfg : Config) (year : Int) (rng : Nat → ℚ) :
    List Person → Nat → List Person × Nat
  | [], idx => ([], idx)
  | p :: rest, idx =>
    let r := phase1Person cfg year rng idx p
    let rr := phase1 cfg year rng rest r.2
    (r.1 :: rr.1, rr.2)

/-- `Simulation._create_child`: the sex draw consumes one stream value. -/
def createChild (cfg : Config) (year : Int) (rng : Nat → ℚ) (idx : Nat) (nid : Nat)
    (parent : Person) : Person × Nat :=
  ({ id := nid
     birth_year := year
     generation := parent.generation + 1
     status := Status.child
     parent_ids := [parent.id]
     death_year := none
     partner_since := none
     emeritus_since := none
     econ_rights_end_year := none
     sex := if rng idx < cfg.sex_ratio then Sex.M else Sex.F }, idx + 1)

def isFertileParent (cfg : Config) (year : Int) (p : Person) : Bool :=
  decide ((p.status = Status.partner_active ∨ p.status = Status.partner_emeritus) ∧
    cfg.fertility_age_start ≤ year - p.birth_year ∧ year - p.birth_year ≤ cfg.fertility_age_end)

def birthHazard (cfg : Config) : ℚ :=
  cfg.fertility_mean / ((cfg.fertility_age_end - cfg.fertility_age_start + 1 : Int) : ℚ)

/-- Phase 2 of `Simulation._tick`: iterate over the snapshot list of fertile
parents, one birth draw each, a successful draw appending one child. -/
def phase2Go (cfg : Config) (year : Int) (rng : Nat → ℚ) :
    List Person → List Person → Nat → Nat → List Person × Nat × Nat
  | [], people, idx, nid => (people, idx, nid)
  | parent :: rest, people, idx, nid =>
    if rng idx < birthHazard cfg then
      let c := createChild cfg year rng (idx + 1) nid parent
      phase2Go cfg year rng rest (people ++ [c.1]) c.2 (nid + 1)
    else
      phase2Go cfg year rng rest people (idx + 1) nid

def phase2 (cfg : Config) (year : Int) (rng : Nat → ℚ) (people : List Person)
    (idx nid : Nat) : List Person × Nat × Nat :=
  phase2Go cfg year rng (people.filter (isFertileParent cfg year)) people idx nid

/-- The loop body of `Simulation._is_parent_eligible`: early `return True`
on an eligible stored parent, and the final `return True` fall-through. -/
def isParentEligibleGo (people : List Person) (elig : List Status) : List Nat → Bool
  | [] => true
  | pid :: rest =>
    match people.find? (fun q => decide (q.id = pid)) with
    | some q => if q.status ∈ elig then true else isParentEligibleGo people elig rest
    | none => isParentEligibleGo people elig rest

def isParentEligible (people : List Person) (elig : List Status) (child : Person) : Bool :=
  isParentEligibleGo people elig child.parent_ids

/-- Phase 3 of `Simulation._tick` (invitation at age 26).  The Python loop
mutates persons in the dict as it walks it, and the parent lookup sees those
mutations, so the accumulator `done` is part of the lookup population. -/
def phase3Go (cfg : Config) (year : Int) (rng : Nat → ℚ) :
    List Person → List Person → Nat → List Person × Nat
  | done, [], idx => (done, idx)
  | done, p :: todo, idx =>
    if p.status = Status.child ∧ year - p.birth_year = 26 then
      if isParentEligible (done ++ p :: todo) cfg.eligible_parent_status p then
        if rng idx < cfg.invite_prob then
          phase3Go cfg year rng (done ++ [{ p with status := Status.trainee }]) todo (idx + 1)
        else
          phase3Go cfg year rng (done ++ [{ p with status := Status.washout }]) todo (idx + 1)
      else
        phase3Go cfg year rng (done ++ [{ p with status := Status.washout }]) todo idx
    else
      phase3Go cfg year rng (done ++ [p]) todo idx

def phase3 (cfg : Config) (year : Int) (rng : Nat → ℚ) (people : List Person)
    (idx : Nat) : List Person × Nat :=
  phase3Go cfg year rng [] people idx

/-- Phase 4 of `Simulation._tick` (promotion inside the probation window),
for one person. -/
def phase4Person (cfg : Config) (year : Int) (rng : Nat → ℚ) (idx : Nat) (p : Person) :
    Person × Nat :=
  if p.status = Status.trainee then
    let age := year - p.birth_year
    if cfg.probation_min ≤ age - 26 ∧ age - 26 ≤ cfg.probation_max then
      if rng idx < cfg.promotion_prob then
        ({ p with status := Status.partner_active, partner_since := some year }, idx + 1)
      else if 26 + cfg.probation_max ≤ age then
        ({ p with status := Status.washout }, idx + 1)
      else (p, idx + 1)
    else (p, idx)
  else (p, idx)

def phase4 (cfg : Config) (year : Int) (rng : Nat → ℚ) :
    List Person → Nat → List Person × Nat
  | [], idx => ([], idx)
  | p :: rest, idx =>
    let r := phase4Person cfg year rng idx p
    let rr := phase4 cfg year rng rest r.2
    (r.1 :: rr.1, rr.2)

/-- `is_econ` in `Simulation._counts`. -/
def isEcon (year : Int) (p : Person) : Bool :=
  decide (p.status = Status.partner_active ∨ p.status = Status.partner_emeritus) &&
    (match p.econ_rights_end_year with
     | none => true
     | some e => decide (year < e))

/-- `is_vote` in `Simulation._counts` (the `≠ deceased` conjunct of the
source is kept even though it is redundant). -/
def isVote (p : Person) : Bool :=
  decide ((p.status = Status.partner_active ∨ p.status = Status.partner_emeritus) ∧
    ¬ p.status = Status.deceased)

structure Counts where
  year : Int
  partners_active : Nat
  partners_emeritus : Nat
  partners_economic : Nat
  partners_voting : Nat
  trainees : Nat
  children : Nat
  washouts : Nat
  living : Nat
deriving DecidableEq, Repr

/-- `Simulation._counts`. -/
def counts (year : Int) (people : List Person) : Counts where
  year := year
  partners_active := people.countP (fun p => decide (p.status = Status.partner_active))
  partners_emeritus := people.countP (fun p => decide (p.status = Status.partner_emeritus))
  partners_economic := people.countP (isEcon year)
  partners_voting := people.countP isVote
  trainees := people.countP (fun p => decide (p.status = Status.trainee))
  children := people.countP (fun p => decide (p.status = Status.child))
  washouts := people.countP (fun p => decide (p.status = Status.washout))
  living := people.countP (fun p => decide (¬ p.status = Status.deceased))

structure SimState where
  cfg : Config
  year : Int
  people : List Person
  next_id : Nat
  rng : Nat → ℚ
  idx : Nat
  history : List Counts

/-- `Simulation._tick`. -/
def tick (s : SimState) : SimState :=
  let r1 := phase1 s.cfg s.year s.rng s.people s.idx
  let r2 := phase2 s.cfg s.year s.rng r1.1 r1.2 s.next_id
  let r3 := phase3 s.cfg s.year s.rng r2.1 r2.2.1
  let r4 := phase4 s.cfg s.year s.rng r3.1 r3.2
  { s with
    people := r4.1
    idx := r4.2
    next_id := r2.2.2
    history := s.history ++ [counts s.year r4.1]
    year := s.year + 1 }

def runN : Nat → SimState → SimState
  | 0, s => s
  | n + 1, s => runN n (tick s)

/-- `Simulation.run`. -/
def run (s : SimState) : SimState := runN s.cfg.horizon_years s

/-- One row of the optional initial-population table
(`Simulation._add_person_from_row` reads these fields; the id comes from the
engine's allocator). -/
structure Row where
  birth_year : Int
  generation : Int
  status : Status
  parent_ids : List Nat
  death_year : Option Int
  partner_since : Option Int
  emeritus_since : Option Int
  econ_rights_end_year : Option Int
  sex : Sex

def addRows : Nat → List Row → List Person
  | _, [] => []
  | nid, r :: rs =>
    { id := nid
      birth_year := r.birth_year
      generation := r.generation
      status := r.status
      parent_ids := r.parent_ids
      death_year := r.death_year
      partner_since := r.partner_since
      emeritus_since := r.emeritus_since
      econ_rights_end_year := r.econ_rights_end_year
      sex := r.sex } :: addRows (nid + 1) rs

/-- `Simulation.__init__` with an initial-population table supplied. -/
def initSim (cfg : Config) (rng : Nat → ℚ) (rows : List Row) : SimState where
  cfg := cfg
  year := cfg.start_year
  people := addRows 1 rows
  next_id := 1 + rows.length
  rng := rng
  idx := 0
  history := []

/-- Number of stream values phase 1 consumes for one person. -/
def phase1Draws (p : Person) : Nat :=
  if p.status = Status.deceased then 0 else if p.death_year = none then 1 else 0

/-- The stream cursor at which phase 1 processes the person at position `i`,
when the phase starts at cursor `idx`. -/
def phase1IdxAt (ps : List Person) (idx i : Nat) : Nat :=
  idx + ((ps.take i).map phase1Draws).sum

/-- What phase 3 can do to one person: left alone, or (for a 26-year-old
child) sent to trainee or washout. -/
def P3rel (p q : Person) : Prop :=
  q = p ∨ (p.status = Status.child ∧
    (q = { p with status := Status.trainee } ∨ q = { p with status := Status.washout }))

def C1cfg : Config := { defaultConfig with invite_prob := 1 }

def C1rows : List Row :=
  [ { birth_year := 1950, generation := 5, status := Status.deceased, parent_ids := [],
      death_year := some 2000, partner_since := none, emeritus_since := none,
      econ_rights_end_year := none, sex := Sex.F },
    { birth_year := 1999, generation := 6, status := Status.child, parent_ids := [1],
      death_year := some 2100, partner_since := none, emeritus_since := none,
      econ_rights_end_year := none, sex := Sex.F } ]

/-- Year 2025: person 2 is a child of exactly age 26 whose only recorded
parent (person 1) is deceased, hence not in the eligible-parent set;
invite_prob is 1. -/
def C1state : SimState := initSim C1cfg (fun _ => 1/2) C1rows

def C2person : Person :=
  { id := 1, birth_year := 1960, generation := 5, status := Status.partner_active,
    parent_ids := [], death_year := some 2025, partner_since := some 1992,
    emeritus_since := none, econ_rights_end_year := none, sex := Sex.F }

/-- Year 2025: an active partner aged 65 (= age_econ_rights_end) whose
death year equals the current year and whose economic rights have not
lapsed. -/
def C2state : SimState :=
  { cfg := defaultConfig, year := 2025, people := [C2person], next_id := 2,
    rng := fun _ => 1/2, idx := 0, history := [] }

def C3rows : List Row :=
  [ { birth_year := 1950, generation := 5, status := Status.deceased, parent_ids := [],
      death_year := none, partner_since := none, emeritus_since := none,
      econ_rights_end_year := none, sex := Sex.F },
    { birth_year := 1940, generation := 5, status := Status.washout, parent_ids := [],
      death_year := none, partner_since := none, emeritus_since := none,
      econ_rights_end_year := none, sex := Sex.F } ]

/-- Year 2025: person 1 is deceased with death_year unset; person 2 is
alive with death_year unset, and the first stream value makes their normal
draw come out at 85 + 8·(−3/80) = 84.7. -/
def C3state : SimState := initSim defaultConfig (fun _ => -3/80) C3rows

def W2person : Person :=
  { id := 1, birth_year := 1960, generation := 5, status := Status.partner_active,
    parent_ids := [], death_year := some 2100, partner_since := some 1992,
    emeritus_since := none, econ_rights_end_year := none, sex := Sex.F }

def W2state : SimState :=
  { cfg := defaultConfig, year := 2025, people := [W2person], next_id := 2,
    rng := fun _ => 1/2, idx := 0, history := [] }

def W3person : Person :=
  { id := 1, birth_year := 2000, generation := 6, status := Status.washout,
    parent_ids := [], death_year := none, partner_since := none,
    emeritus_since := none, econ_rights_end_year := none, sex := Sex.F }

def W3state : SimState :=
  { cfg := defaultConfig, year := 2025, people := [W3person], next_id := 2,
    rng := fun _ => 0, idx := 0, history := [] }

def W4person : Person :=
  { id := 1, birth_year := 1930, generation := 4, status := Status.deceased,
    parent_ids := [], death_year := some 2000, partner_since := some 1962,
    emeritus_since := some 1985, econ_rights_end_year := some 1995, sex := Sex.M }

def W4state : SimState :=
  { cfg := defaultConfig, year := 2025, people := [W4person], next_id := 2,
    rng := fun _ => 1/2, idx := 0, history := [] }

def W5person : Person :=
  { id := 1, birth_year := 1980, generation := 6, status := Status.partner_active,
    parent_ids := [], death_year := some 2100, partner_since := some 2012,
    emeritus_since := none, econ_rights_end_year := none, sex := Sex.F }

def W5state : SimState :=
  { cfg := defaultConfig, year := 2025, people := [W5person], next_id := 2,
    rng := fun _ => 1/2, idx := 0, history := [] }

def C6person : Person :=
  { id := 1, birth_year := 2000, generation := 6, status := Status.trainee,
    parent_ids := [], death_year := some 2100, partner_since := none,
    emeritus_since := none, econ_rights_end_year := none, sex := Sex.F }

def C7parent : Person :=
  { id := 3, birth_year := 2000, generation := 1, status := Status.partner_active,
    parent_ids := [], death_year := some 2100, partner_since := some 2030,
    emeritus_since := none, econ_rights_end_year := none, sex := Sex.F }

def W8cfg : Config := { defaultConfig with horizon_years := 1 }

def W10person : Person :=
  { id := 1, birth_year := 1980, generation := 6, status := Status.trainee,
    parent_ids := [], death_year := some 2100, partner_since := none,
    emeritus_since := none, econ_rights_end_year := none, sex := Sex.F }

def W10state : SimState :=
  { cfg := defaultConfig, year := 2025, people := [W10person], next_id := 2,
    rng := fun _ => 1/2, idx := 0, history := [] }

theorem phase1Person_snd (cfg : Config) (year : Int) (rng : Nat → ℚ) (idx : Nat) (p : Person) :
    (phase1Person cfg year rng idx p).2 = idx + phase1Draws p := by
  by_cases h : p.status = Status.deceased
  · simp [phase1Person, phase1Draws, h]
  · cases hd : p.death_year <;> simp [phase1Person, phase1Draws, h, hd]

theorem phase1_getElem? (cfg : Config) (year : Int) (rng : Nat → ℚ) (ps : List Person) :
    ∀ idx i, ((phase1 cfg year rng ps idx).1)[i]?
      = (ps[i]?).map (fun p => (phase1Person cfg year rng (phase1IdxAt ps idx i) p).1) := by
  induction ps with
  | nil => intro idx i; simp [phase1]
  | cons p rest ih =>
    intro idx i
    cases i with
    | zero => simp [phase1, phase1IdxAt]
    | succ i =>
      simp only [phase1, List.getElem?_cons_succ]
      rw [ih]
      simp [phase1IdxAt, phase1Person_snd, List.take_succ_cons, Nat.add_assoc]

theorem phase1_length (cfg : Config) (year : Int) (rng : Nat → ℚ) (ps : List Person) :
    ∀ idx, ((phase1 cfg year rng ps idx).1).length = ps.length := by
  induction ps with
  | nil => intro idx; simp [phase1]
  | cons p rest ih => intro idx; simp [phase1, ih]

theorem phase1Person_deceased (cfg : Config) (year : Int) (rng : Nat → ℚ) (j : Nat)
    (p : Person) (h : p.status = Status.deceased) :
    phase1Person cfg year rng j p = (p, j) := by
  simp [phase1Person, h]

theorem phase1Person_death_stable (cfg : Config) (year : Int) (rng : Nat → ℚ) (j : Nat)
    (p : Person) (d : Int) (hd : p.death_year = some d) :
    ((phase1Person cfg year rng j p).1).death_year = some d := by
  by_cases h : p.status = Status.deceased
  · simp [phase1Person, h, hd]
  · simp only [phase1Person, if_neg h, hd]
    split <;> split <;> split <;> simp_all

theorem phase1Person_draw (cfg : Config) (year : Int) (rng : Nat → ℚ) (j : Nat)
    (p : Person) (h : ¬ p.status = Status.deceased) (hd : p.death_year = none) :
    ((phase1Person cfg year rng j p).1).death_year
      = some (p.birth_year + pyInt (cfg.mortality_mean + cfg.mortality_sd * rng j)) := by
  simp only [phase1Person, if_neg h, hd]
  split <;> split <;> split <;> simp_all

theorem phase1Person_econ (cfg : Config) (year : Int) (rng : Nat → ℚ) (j : Nat) (p : Person)
    (hst : p.status = Status.partner_active ∨ p.status = Status.partner_emeritus)
    (hec : p.econ_rights_end_year = none)
    (hage : cfg.age_econ_rights_end ≤ year - p.birth_year) :
    (((phase1Person cfg year rng j p).1).status = Status.deceased ∧
      ((phase1Person cfg year rng j p).1).econ_rights_end_year = none) ∨
    (((phase1Person cfg year rng j p).1).econ_rights_end_year = some year ∧
      (((phase1Person cfg year rng j p).1).status = Status.partner_active ∨
        ((phase1Person cfg year rng j p).1).status = Status.partner_emeritus)) := by
  have h : ¬ p.status = Status.deceased := by rcases hst with h | h <;> simp [h]
  simp only [phase1Person, if_neg h]
  rcases hst with h1 | h1 <;>
    cases hd : p.death_year <;> simp_all <;> split <;> simp_all <;> split <;> simp_all

theorem phase1Person_frozen_trainee (cfg : Config) (year : Int) (rng : Nat → ℚ) (j : Nat)
    (p : Person) (d : Int) (ht : p.status = Status.trainee) (hd : p.death_year = some d)
    (hy : year < d) :
    phase1Person cfg year rng j p = (p, j) := by
  obtain ⟨pid, pb, pg, pst, ppar, pdy, pps, pes, pec, psx⟩ := p
  simp only at ht hd
  subst ht; subst hd
  simp [phase1Person, not_le.mpr hy]

theorem phase2Go_spec (cfg : Config) (year : Int) (rng : Nat → ℚ) :
    ∀ (parents ps : List Person) (idx nid : Nat),
    ∃ cs, (phase2Go cfg year rng parents ps idx nid).1 = ps ++ cs ∧
      (phase2Go cfg year rng parents ps idx nid).2.2 = nid + cs.length ∧
      cs.map Person.id = List.range' nid cs.length ∧
      ∀ c ∈ cs, ∃ parent, parent ∈ parents ∧ ∃ j,
        c = (createChild cfg year rng j c.id parent).1 := by
  intro parents
  induction parents with
  | nil =>
    intro ps idx nid
    exact ⟨[], by simp [phase2Go]⟩
  | cons parent rest ih =>
    intro ps idx nid
    by_cases hdraw : rng idx < birthHazard cfg
    · obtain ⟨cs', h1, h2, h3, h4⟩ :=
        ih (ps ++ [(createChild cfg year rng (idx + 1) nid parent).1])
          ((createChild cfg year rng (idx + 1) nid parent).2) (nid + 1)
      refine ⟨(createChild cfg year rng (idx + 1) nid parent).1 :: cs', ?_, ?_, ?_, ?_⟩
      · simp only [phase2Go, if_pos hdraw, h1, List.append_assoc, List.singleton_append]
      · simp only [phase2Go, if_pos hdraw, h2, List.length_cons]
        omega
      · simp only [List.map_cons, h3, List.range', List.length_cons]
        rfl
      · intro c hc
        rcases List.mem_cons.mp hc with hc | hc
        · subst hc
          exact ⟨parent, List.mem_cons_self _ _, idx + 1, rfl⟩
        · obtain ⟨parent', hmem, j, hj⟩ := h4 c hc
          exact ⟨parent', List.mem_cons_of_mem _ hmem, j, hj⟩
    · obtain ⟨cs', h1, h2, h3, h4⟩ := ih ps (idx + 1) nid
      refine ⟨cs', ?_, ?_, h3, ?_⟩
      · simp only [phase2Go, if_neg hdraw, h1]
      · simp only [phase2Go, if_neg hdraw, h2]
      · intro c hc
        obtain ⟨parent', hmem, j, hj⟩ := h4 c hc
        exact ⟨parent', List.mem_cons_of_mem _ hmem, j, hj⟩

theorem P3rel_death (p q : Person) (h : P3rel p q) : q.death_year = p.death_year := by
  rcases h with rfl | ⟨_, rfl | rfl⟩ <;> rfl

theorem P3rel_econ (p q : Person) (h : P3rel p q) :
    q.econ_rights_end_year = p.econ_rights_end_year := by
  rcases h with rfl | ⟨_, rfl | rfl⟩ <;> rfl

theorem P3rel_of_ne_child (p q : Person) (h : ¬ p.status = Status.child) (hr : P3rel p q) :
    q = p := by
  rcases hr with rfl | ⟨hc, _⟩
  · rfl
  · exact absurd hc h

/-- The `return True` fall-through of `_is_parent_eligible` makes the whole
function constantly true: the stored-parent loop is dead code. -/
theorem isParentEligibleGo_true (people : List Person) (elig : List Status) :
    ∀ pids, isParentEligibleGo people elig pids = true := by
  intro pids
  induction pids with
  | nil => simp [isParentEligibleGo]
  | cons pid rest ih =>
    simp only [isParentEligibleGo]
    split <;> simp [ih]

theorem isParentEligible_true (people : List Person) (elig : List Status) (c : Person) :
    isParentEligible people elig c = true :=
  isParentEligibleGo_true people elig c.parent_ids

theorem phase3Go_done_getElem? (cfg : Config) (year : Int) (rng : Nat → ℚ) :
    ∀ (todo done : List Person) (idx j : Nat), j < done.length →
      ((phase3Go cfg year rng done todo idx).1)[j]? = done[j]? := by
  intro todo
  induction todo with
  | nil => intro done idx j hj; simp [phase3Go]
  | cons p todo ih =>
    intro done idx j hj
    have hj' : ∀ q : Person, j < (done ++ [q]).length := by intro q; simp; omega
    have happ : ∀ q : Person, (done ++ [q])[j]? = done[j]? := by
      intro q; exact List.getElem?_append_left hj
    by_cases hc : p.status = Status.child ∧ year - p.birth_year = 26
    · by_cases hr : rng idx < cfg.invite_prob
      · simp only [phase3Go, if_pos hc, isParentEligible_true, if_true, if_pos hr]
        rw [ih _ _ j (hj' _), happ]
      · simp only [phase3Go, if_pos hc, isParentEligible_true, if_true, if_neg hr]
        rw [ih _ _ j (hj' _), happ]
    · simp only [phase3Go, if_neg hc]
      rw [ih _ _ j (hj' _), happ]

theorem phase3Go_todo_getElem? (cfg : Config) (year : Int) (rng : Nat → ℚ) :
    ∀ (todo done : List Person) (idx i : Nat) (p : Person), todo[i]? = some p →
      ∃ q, ((phase3Go cfg year rng done todo idx).1)[done.length + i]? = some q ∧ P3rel p q := by
  intro todo
  induction todo with
  | nil => intro done idx i p hp; simp at hp
  | cons p0 todo ih =>
    intro done idx i p hp
    have hhead : ∀ (q0 : Person) (idx2 : Nat),
        ((phase3Go cfg year rng (done ++ [q0]) todo idx2).1)[done.length + 0]? = some q0 := by
      intro q0 idx2
      rw [Nat.add_zero,
        phase3Go_done_getElem? cfg year rng todo (done ++ [q0]) idx2 done.length (by simp)]
      simp
    have hstep : ∀ (q0 : Person) (idx2 : Nat) (i' : Nat) (hp' : todo[i']? = some p),
        ∃ q, ((phase3Go cfg year rng (done ++ [q0]) todo idx2).1)[done.length + (i' + 1)]?
          = some q ∧ P3rel p q := by
      intro q0 idx2 i' hp'
      have harith : done.length + (i' + 1) = (done ++ [q0]).length + i' := by simp; omega
      rw [harith]
      exact ih (done ++ [q0]) idx2 i' p hp'
    cases i with
    | zero =>
      simp only [List.getElem?_cons_zero, Option.some.injEq] at hp
      subst hp
      by_cases hc : p0.status = Status.child ∧ year - p0.birth_year = 26
      · by_cases hr : rng idx < cfg.invite_prob
        · simp only [phase3Go, if_pos hc, isParentEligible_true, if_true, if_pos hr]
          exact ⟨_, hhead _ _, Or.inr ⟨hc.1, Or.inl rfl⟩⟩
        · simp only [phase3Go, if_pos hc, isParentEligible_true, if_true, if_neg hr]
          exact ⟨_, hhead _ _, Or.inr ⟨hc.1, Or.inr rfl⟩⟩
      · simp only [phase3Go, if_neg hc]
        exact ⟨_, hhead _ _, Or.inl rfl⟩
    | succ i =>
      simp only [List.getElem?_cons_succ] at hp
      by_cases hc : p0.status = Status.child ∧ year - p0.birth_year = 26
      · by_cases hr : rng idx < cfg.invite_prob
        · simp only [phase3Go, if_pos hc, isParentEligible_true, if_true, if_pos hr]
          exact hstep _ _ i hp
        · simp only [phase3Go, if_pos hc, isParentEligible_true, if_true, if_neg hr]
          exact hstep _ _ i hp
      · simp only [phase3Go, if_neg hc]
        exact hstep _ _ i hp

theorem phase4_getElem? (cfg : Config) (year : Int) (rng : Nat → ℚ) (ps : List Person) :
    ∀ idx i, ∃ j, List.get? ((phase4 cfg year rng ps idx).1) i
      = Option.map (fun p => (phase4Person cfg year rng j p).1) (List.get? ps i) := by
  induction ps with
  | nil =>
    intro idx i
    refine ⟨idx, ?_⟩
    simp [phase4]
  | cons p rest ih =>
    intro idx i
    cases i with
    | zero =>
      refine ⟨idx, ?_⟩
      simp [phase4]
    | succ i =>
      obtain ⟨j, hj⟩ := ih ((phase4Person cfg year rng idx p).2) i
      refine ⟨j, ?_⟩
      simpa [phase4] using hj

theorem phase4Person_not_trainee (cfg : Config) (year : Int) (rng : Nat → ℚ) (j : Nat)
    (p : Person) (h : ¬ p.status = Status.trainee) :
    phase4Person cfg year rng j p = (p, j) := by
  simp [phase4Person, h]

theorem phase4Person_death (cfg : Config) (year : Int) (rng : Nat → ℚ) (j : Nat) (p : Person) :
    ((phase4Person cfg year rng j p).1).death_year = p.death_year := by
  simp only [phase4Person]
  split <;> [skip; rfl]
  split <;> [skip; rfl]
  split <;> [rfl; skip]
  split <;> rfl

theorem phase4Person_econ (cfg : Config) (year : Int) (rng : Nat → ℚ) (j : Nat) (p : Person) :
    ((phase4Person cfg year rng j p).1).econ_rights_end_year = p.econ_rights_end_year := by
  simp only [phase4Person]
  split <;> [skip; rfl]
  split <;> [skip; rfl]
  split <;> [rfl; skip]
  split <;> rfl

theorem phase4Person_past_window (cfg : Config) (year : Int) (rng : Nat → ℚ) (j : Nat)
    (p : Person) (ht : p.status = Status.trainee)
    (hw : cfg.probation_max < year - p.birth_year - 26) :
    phase4Person cfg year rng j p = (p, j) := by
  have hcond : ¬ (cfg.probation_min ≤ year - p.birth_year - 26 ∧
      year - p.birth_year - 26 ≤ cfg.probation_max) := by omega
  simp only [phase4Person]
  rw [if_pos ht, if_neg hcond]

theorem tick_people (s : SimState) :
    (tick s).people =
      (phase4 s.cfg s.year s.rng
        (phase3 s.cfg s.year s.rng
          (phase2 s.cfg s.year s.rng (phase1 s.cfg s.year s.rng s.people s.idx).1
            (phase1 s.cfg s.year s.rng s.people s.idx).2 s.next_id).1
          (phase2 s.cfg s.year s.rng (phase1 s.cfg s.year s.rng s.people s.idx).1
            (phase1 s.cfg s.year s.rng s.people s.idx).2 s.next_id).2.1).1
        (phase3 s.cfg s.year s.rng
          (phase2 s.cfg s.year s.rng (phase1 s.cfg s.year s.rng s.people s.idx).1
            (phase1 s.cfg s.year s.rng s.people s.idx).2 s.next_id).1
          (phase2 s.cfg s.year s.rng (phase1 s.cfg s.year s.rng s.people s.idx).1
            (phase1 s.cfg s.year s.rng s.people s.idx).2 s.next_id).2.1).2).1 := rfl

theorem tick_cfg (s : SimState) : (tick s).cfg = s.cfg := rfl

theorem tick_rng (s : SimState) : (tick s).rng = s.rng := rfl

theorem tick_year (s : SimState) : (tick s).year = s.year + 1 := rfl

theorem tick_history (s : SimState) :
    (tick s).history = s.history ++ [counts s.year (tick s).people] := rfl

theorem runN_succ_out (n : Nat) (s : SimState) : runN (n + 1) s = tick (runN n s) := by
  induction n generalizing s with
  | zero => rfl
  | succ n ih => exact ih (tick s)

theorem runN_cfg (n : Nat) (s : SimState) : (runN n s).cfg = s.cfg := by
  induction n generalizing s with
  | zero => rfl
  | succ n ih => exact ih (tick s)

theorem runN_rng (n : Nat) (s : SimState) : (runN n s).rng = s.rng := by
  induction n generalizing s with
  | zero => rfl
  | succ n ih => exact ih (tick s)

theorem runN_year (n : Nat) (s : SimState) : (runN n s).year = s.year + n := by
  induction n generalizing s with
  | zero => simp [runN]
  | succ n ih =>
    have : runN (n + 1) s = tick (runN n s) := runN_succ_out n s
    rw [this, tick_year, ih]
    push_cast
    ring


/-- Master per-person description of one tick: the person at position `i`
goes through phase 1 at an exactly determined stream cursor, then through
the phase-3 relation, then through the phase-4 rule; phase 2 only appends
children after the existing population. -/
theorem tick_getElem? (s : SimState) (i : Nat) (p : Person) (hp : s.people[i]? = some p) :
    ∃ (b : Person) (j : Nat),
      P3rel ((phase1Person s.cfg s.year s.rng (phase1IdxAt s.people s.idx i) p).1) b ∧
      (tick s).people[i]? = some ((phase4Person s.cfg s.year s.rng j b).1) := by
  rw [tick_people]
  have h1 : ((phase1 s.cfg s.year s.rng s.people s.idx).1)[i]?
      = some ((phase1Person s.cfg s.year s.rng (phase1IdxAt s.people s.idx i) p).1) := by
    rw [phase1_getElem?, hp]
    rfl
  have hlen : i < ((phase1 s.cfg s.year s.rng s.people s.idx).1).length :=
    (List.getElem?_eq_some.mp h1).1
  obtain ⟨cs, hcs, -, -, -⟩ := phase2Go_spec s.cfg s.year s.rng
    (((phase1 s.cfg s.year s.rng s.people s.idx).1).filter
      (isFertileParent s.cfg s.year))
    ((phase1 s.cfg s.year s.rng s.people s.idx).1)
    ((phase1 s.cfg s.year s.rng s.people s.idx).2) s.next_id
  have h2 : ((phase2 s.cfg s.year s.rng (phase1 s.cfg s.year s.rng s.people s.idx).1
        (phase1 s.cfg s.year s.rng s.people s.idx).2 s.next_id).1)[i]?
      = some ((phase1Person s.cfg s.year s.rng (phase1IdxAt s.people s.idx i) p).1) := by
    show ((phase2Go s.cfg s.year s.rng _ _ _ _).1)[i]? = _
    rw [hcs, List.getElem?_append_left hlen, h1]
  obtain ⟨b, hb, hrel⟩ := phase3Go_todo_getElem? s.cfg s.year s.rng
    ((phase2 s.cfg s.year s.rng (phase1 s.cfg s.year s.rng s.people s.idx).1
      (phase1 s.cfg s.year s.rng s.people s.idx).2 s.next_id).1) [] 
    ((phase2 s.cfg s.year s.rng (phase1 s.cfg s.year s.rng s.people s.idx).1
      (phase1 s.cfg s.year s.rng s.people s.idx).2 s.next_id).2.1) i _ h2
  obtain ⟨j, hj⟩ := phase4_getElem? s.cfg s.year s.rng
    ((phase3 s.cfg s.year s.rng
      (phase2 s.cfg s.year s.rng (phase1 s.cfg s.year s.rng s.people s.idx).1
        (phase1 s.cfg s.year s.rng s.people s.idx).2 s.next_id).1
      (phase2 s.cfg s.year s.rng (phase1 s.cfg s.year s.rng s.people s.idx).1
        (phase1 s.cfg s.year s.rng s.people s.idx).2 s.next_id).2.1).1)
    ((phase3 s.cfg s.year s.rng
      (phase2 s.cfg s.year s.rng (phase1 s.cfg s.year s.rng s.people s.idx).1
        (phase1 s.cfg s.year s.rng s.people s.idx).2 s.next_id).1
      (phase2 s.cfg s.year s.rng (phase1 s.cfg s.year s.rng s.people s.idx).1
        (phase1 s.cfg s.year s.rng s.people s.idx).2 s.next_id).2.1).2) i
  refine ⟨b, j, hrel, ?_⟩
  have hb' : ((phase3 s.cfg s.year s.rng
      (phase2 s.cfg s.year s.rng (phase1 s.cfg s.year s.rng s.people s.idx).1
        (phase1 s.cfg s.year s.rng s.people s.idx).2 s.next_id).1
      (phase2 s.cfg s.year s.rng (phase1 s.cfg s.year s.rng s.people s.idx).1
        (phase1 s.cfg s.year s.rng s.people s.idx).2 s.next_id).2.1).1)[i]? = some b := by
    have := hb
    simpa [phase3] using this
  rw [← List.get?_eq_getElem?] at hb' ⊢
  rw [hj, hb']
  rfl

theorem tick_death_year (s : SimState) (i : Nat) (p : Person) (d : Int)
    (hp : s.people[i]? = some p) (hd : p.death_year = some d) :
    ∃ q, (tick s).people[i]? = some q ∧ q.death_year = some d := by
  obtain ⟨b, j, hrel, hout⟩ := tick_getElem? s i p hp
  have h1 := phase1Person_death_stable s.cfg s.year s.rng (phase1IdxAt s.people s.idx i) p d hd
  have h3 : b.death_year = some d := by
    rw [P3rel_death _ _ hrel, h1]
  refine ⟨_, hout, ?_⟩
  rw [phase4Person_death, h3]

/-- Claim C4: a person whose status is deceased before a tick is completely
untouched by the tick: same record (hence still deceased, no field
modified). -/
theorem tick_deceased_frozen (s : SimState) (i : Nat) (p : Person)
    (hp : s.people[i]? = some p) (hdec : p.status = Status.deceased) :
    (tick s).people[i]? = some p := by
  obtain ⟨b, j, hrel, hout⟩ := tick_getElem? s i p hp
  have ha : (phase1Person s.cfg s.year s.rng (phase1IdxAt s.people s.idx i) p).1 = p := by
    rw [phase1Person_deceased s.cfg s.year s.rng _ p hdec]
  rw [ha] at hrel
  have hb : b = p := P3rel_of_ne_child p b (by rw [hdec]; simp) hrel
  rw [hb] at hout
  rw [phase4Person_not_trainee s.cfg s.year s.rng j p (by rw [hdec]; simp)] at hout
  exact hout

/-- Claim C5: a death year, once set, is carried unchanged through every
later tick of the run. -/
theorem death_year_immutable (s : SimState) (k i : Nat) (p : Person) (d : Int)
    (hp : s.people[i]? = some p) (hd : p.death_year = some d) :
    ∃ q, (runN k s).people[i]? = some q ∧ q.death_year = some d := by
  induction k with
  | zero => exact ⟨p, hp, hd⟩
  | succ k ih =>
    obtain ⟨q, hq, hqd⟩ := ih
    rw [runN_succ_out]
    exact tick_death_year (runN k s) i q d hq hqd

/-- Claim C2 (amended): for a partner with unlapsed economic rights at or
past the lapse age, the tick either marks them deceased with
econ_rights_end_year still unset (when their death year has arrived — the
death check runs first in the same pass and its result blocks the lapse),
or it leaves them a living partner (active or emeritus) with
econ_rights_end_year set to the current year: rights-lapse fires only on
survivors, so lapse and death never combine in one tick. -/
theorem tick_econ_lapse_or_death (s : SimState) (i : Nat) (p : Person)
    (hp : s.people[i]? = some p)
    (hst : p.status = Status.partner_active ∨ p.status = Status.partner_emeritus)
    (hec : p.econ_rights_end_year = none)
    (hage : s.cfg.age_econ_rights_end ≤ s.year - p.birth_year) :
    ∃ q, (tick s).people[i]? = some q ∧
      ((q.status = Status.deceased ∧ q.econ_rights_end_year = none) ∨
        ((q.status = Status.partner_active ∨ q.status = Status.partner_emeritus) ∧
          q.econ_rights_end_year = some s.year)) := by
  obtain ⟨b, j, hrel, hout⟩ := tick_getElem? s i p hp
  rcases phase1Person_econ s.cfg s.year s.rng (phase1IdxAt s.people s.idx i) p hst hec hage
    with ⟨hs1, he1⟩ | ⟨he1, hs1⟩
  · have hb : b = (phase1Person s.cfg s.year s.rng (phase1IdxAt s.people s.idx i) p).1 :=
      P3rel_of_ne_child _ b (by rw [hs1]; simp) hrel
    refine ⟨_, hout, Or.inl ⟨?_, ?_⟩⟩
    · rw [show (phase4Person s.cfg s.year s.rng j b).1 = b from by
        rw [phase4Person_not_trainee s.cfg s.year s.rng j b (by rw [hb, hs1]; simp)], hb, hs1]
    · rw [phase4Person_econ, hb, he1]
  · have hb : b = (phase1Person s.cfg s.year s.rng (phase1IdxAt s.people s.idx i) p).1 :=
      P3rel_of_ne_child _ b (by rcases hs1 with h | h <;> rw [h] <;> simp) hrel
    have hq : (phase4Person s.cfg s.year s.rng j b).1 = b := by
      rw [phase4Person_not_trainee s.cfg s.year s.rng j b
        (by rw [hb]; rcases hs1 with h | h <;> rw [h] <;> simp)]
    refine ⟨_, hout, Or.inr ⟨?_, ?_⟩⟩
    · rw [hq, hb]
      exact hs1
    · rw [phase4Person_econ, hb, he1]

/-- Claim C3 (amended): a non-deceased person with no death year yet gets
one assigned by the tick, from the normal draw at their exact position in
the shared stream, truncated toward zero by Python `int()`. -/
theorem tick_death_draw_trunc (s : SimState) (i : Nat) (p : Person)
    (hp : s.people[i]? = some p)
    (hnd : ¬ p.status = Status.deceased)
    (hdn : p.death_year = none) :
    ∃ q, (tick s).people[i]? = some q ∧
      q.death_year = some (p.birth_year +
        pyInt (s.cfg.mortality_mean +
          s.cfg.mortality_sd * s.rng (phase1IdxAt s.people s.idx i))) := by
  obtain ⟨b, j, hrel, hout⟩ := tick_getElem? s i p hp
  have h1 := phase1Person_draw s.cfg s.year s.rng (phase1IdxAt s.people s.idx i) p hnd hdn
  refine ⟨_, hout, ?_⟩
  rw [phase4Person_death, P3rel_death _ _ hrel, h1]

theorem tick_trainee_frozen (s : SimState) (i : Nat) (p : Person) (d : Int)
    (hp : s.people[i]? = some p) (ht : p.status = Status.trainee)
    (hw : s.cfg.probation_max < s.year - p.birth_year - 26)
    (hd : p.death_year = some d) (hy : s.year < d) :
    (tick s).people[i]? = some p := by
  obtain ⟨b, j, hrel, hout⟩ := tick_getElem? s i p hp
  rw [phase1Person_frozen_trainee s.cfg s.year s.rng (phase1IdxAt s.people s.idx i) p d ht hd hy]
    at hrel
  have hb : b = p := P3rel_of_ne_child p b (by rw [ht]; simp) hrel
  rw [hb] at hout
  rw [phase4Person_past_window s.cfg s.year s.rng j p ht hw] at hout
  exact hout

/-- Claim C10: a trainee already past the probation window is never touched
by the promotion rule (no stream value consumed, at the current or any
later year), and stays exactly the same person — in particular a trainee —
after every number of ticks whose years all precede the death year. -/
theorem trainee_past_window_frozen (s : SimState) (i : Nat) (p : Person) (d : Int)
    (hp : s.people[i]? = some p)
    (ht : p.status = Status.trainee)
    (hw : s.cfg.probation_max < s.year - p.birth_year - 26)
    (hd : p.death_year = some d) :
    (∀ (j : Nat) (y : Int), s.year ≤ y → phase4Person s.cfg y s.rng j p = (p, j)) ∧
    (∀ k : Nat, s.year + k ≤ d → (runN k s).people[i]? = some p) := by
  constructor
  · intro j y hy
    exact phase4Person_past_window s.cfg y s.rng j p ht (by omega)
  · intro k
    induction k with
    | zero =>
      intro _
      simpa using hp
    | succ k ih =>
      intro hk
      have hcur := ih (by push_cast at hk ⊢; omega)
      rw [runN_succ_out]
      refine tick_trainee_frozen (runN k s) i p d hcur ht ?_ hd ?_
      · rw [runN_cfg, runN_year]
        omega
      · rw [runN_year]
        push_cast at hk
        omega

/-- Claim C6: a trainee inside the probation window consumes exactly one
promotion draw per tick; success promotes (partner_active, partner_since =
Y), failure washes out only at the last window year, and otherwise leaves
the trainee unchanged for a retry next year. -/
theorem promotion_rule (cfg : Config) (year : Int) (rng : Nat → ℚ) (j : Nat) (p : Person)
    (ht : p.status = Status.trainee)
    (h1 : cfg.probation_min ≤ year - p.birth_year - 26)
    (h2 : year - p.birth_year - 26 ≤ cfg.probation_max) :
    (phase4Person cfg year rng j p).2 = j + 1 ∧
    (rng j < cfg.promotion_prob →
      (phase4Person cfg year rng j p).1
        = { p with status := Status.partner_active, partner_since := some year }) ∧
    (¬ rng j < cfg.promotion_prob → 26 + cfg.probation_max ≤ year - p.birth_year →
      (phase4Person cfg year rng j p).1 = { p with status := Status.washout }) ∧
    (¬ rng j < cfg.promotion_prob → year - p.birth_year < 26 + cfg.probation_max →
      (phase4Person cfg year rng j p).1 = p) := by
  have hcond : cfg.probation_min ≤ year - p.birth_year - 26 ∧
      year - p.birth_year - 26 ≤ cfg.probation_max := ⟨h1, h2⟩
  simp only [phase4Person]
  rw [if_pos ht, if_pos hcond]
  by_cases hr : rng j < cfg.promotion_prob
  · simp [hr]
  · by_cases hw : 26 + cfg.probation_max ≤ year - p.birth_year
    · refine ⟨by simp [hr]; split <;> rfl, ?_, ?_, ?_⟩
      · intro h; exact absurd h hr
      · intro _ _; simp [hr, hw]
      · intro _ hlt; exact absurd hw (by omega)
    · refine ⟨by simp [hr]; split <;> rfl, ?_, ?_, ?_⟩
      · intro h; exact absurd h hr
      · intro _ hle; exact absurd hle hw
      · intro _ _; simp [hr, hw]

/-- Claim C7: everything the birth phase appends is a child created by
`_create_child`: status child, birth year = current year, generation =
parent + 1, single parent id, one sex draw, and consecutively allocated
fresh ids starting at the current next_id, which advances by the number of
children. -/
theorem birth_phase_children (cfg : Config) (year : Int) (rng : Nat → ℚ)
    (people : List Person) (idx nid : Nat) :
    ∃ cs, (phase2 cfg year rng people idx nid).1 = people ++ cs ∧
      (phase2 cfg year rng people idx nid).2.2 = nid + cs.length ∧
      cs.map Person.id = List.range' nid cs.length ∧
      ∀ c ∈ cs, ∃ parent, parent ∈ people ∧
        (parent.status = Status.partner_active ∨ parent.status = Status.partner_emeritus) ∧
        ∃ j, c = (createChild cfg year rng j c.id parent).1 := by
  obtain ⟨cs, hpre, hnid, hids, hmem⟩ := phase2Go_spec cfg year rng
    (people.filter (isFertileParent cfg year)) people idx nid
  refine ⟨cs, hpre, hnid, hids, ?_⟩
  intro c hc
  obtain ⟨parent, hp, j, hj⟩ := hmem c hc
  obtain ⟨hp', hfert⟩ := List.mem_filter.mp hp
  refine ⟨parent, hp', ?_, j, hj⟩
  simp only [isFertileParent, decide_eq_true_eq] at hfert
  exact hfert.1

theorem runN_history (n : Nat) : ∀ s : SimState,
    (runN n s).history = s.history ++ (List.range n).map
      (fun (k : Nat) => counts (s.year + (k : Int)) ((runN (k + 1) s).people)) := by
  induction n with
  | zero => intro s; simp [runN]
  | succ n ih =>
    intro s
    have hstep : runN (n + 1) s = runN n (tick s) := rfl
    rw [hstep, ih (tick s), tick_history, List.range_succ_eq_map]
    simp only [List.map_cons, List.map_map, List.append_assoc, List.singleton_append]
    congr 1
    congr 1
    · simp [runN]
    · refine List.map_congr_left ?_
      intro k hk
      simp only [Function.comp_apply, tick_year]
      have hpeq : runN (k + 1) (tick s) = runN (k + 1 + 1) s := rfl
      rw [hpeq]
      congr 1
      push_cast
      ring

/-- Claim C8: `run` performs exactly `horizon_years` ticks; the k-th history
record is the `counts` snapshot (the nine fixed fields, each a count of the
store under its predicate) taken at year start_year + k over the population
as it stands at the end of that tick; and the source's voting predicate is
exactly "active or emeritus". -/
theorem run_history_spec (cfg : Config) (rng : Nat → ℚ) (rows : List Row) :
    (run (initSim cfg rng rows)).history
      = (List.range cfg.horizon_years).map
          (fun (k : Nat) => counts (cfg.start_year + (k : Int))
            ((runN (k + 1) (initSim cfg rng rows)).people)) ∧
    ((run (initSim cfg rng rows)).history).length = cfg.horizon_years ∧
    (∀ p : Person, isVote p
      = decide (p.status = Status.partner_active ∨ p.status = Status.partner_emeritus)) := by
  have h := runN_history cfg.horizon_years (initSim cfg rng rows)
  have h' : (run (initSim cfg rng rows)).history
      = (List.range cfg.horizon_years).map
        (fun (k : Nat) => counts (cfg.start_year + (k : Int))
          ((runN (k + 1) (initSim cfg rng rows)).people)) := by
    rw [show run (initSim cfg rng rows) = runN cfg.horizon_years (initSim cfg rng rows) from rfl,
      h]
    rfl
  refine ⟨h', ?_, ?_⟩
  · rw [h']
    simp
  · intro p
    cases hs : p.status <;> simp [isVote, hs]

/-- Claim C9: the run is a pure function of the stream (the seed's image),
the configuration and the initial population: equal inputs give equal
metric histories and equal final per-person stores. -/
theorem run_deterministic (cfg1 cfg2 : Config) (rng1 rng2 : Nat → ℚ)
    (rows1 rows2 : List Row)
    (hc : cfg1 = cfg2) (hr : rng1 = rng2) (hp : rows1 = rows2) :
    (run (initSim cfg1 rng1 rows1)).history = (run (initSim cfg2 rng2 rows2)).history ∧
    (run (initSim cfg1 rng1 rows1)).people = (run (initSim cfg2 rng2 rows2)).people := by
  subst hc
  subst hr
  subst hp
  exact ⟨rfl, rfl⟩

/-- Claim C1 (code behaviour at the failing input): the 26-year-old child
whose only recorded parent is deceased is still run through the invitation
draw — `_is_parent_eligible`'s final `return True` fires even though a
parent is recorded — so with invite_prob = 1 they become a trainee, one
stream value is consumed, and the status is not washout. -/
theorem invite_gate_not_enforced :
    ((tick C1state).people.map Person.status) = [Status.deceased, Status.trainee] ∧
    (tick C1state).idx = 1 ∧
    ¬ Status.trainee = Status.washout := by
  refine ⟨?_, ?_, by decide⟩
  · with_unfolding_all decide
  · with_unfolding_all decide

/-- Claim C2 (counterexample): the tick marks the partner deceased and does
NOT set econ_rights_end_year — the death check rewrites the status before
the rights-lapse condition reads it, so lapse and death do not combine in
one year as the claim asserts (it asserted some 2025). -/
theorem econ_lapse_lost_on_death_tick :
    ((tick C2state).people.map (fun p => (p.status, p.econ_rights_end_year)))
      = [(Status.deceased, none)] ∧
    ¬ (none : Option Int) = some C2state.year := by
  exact ⟨by decide, by decide⟩

set_option maxRecDepth 8000

/-- Claim C3 (counterexample): the deceased person with unset death year is
skipped (death_year stays none), and the alive person gets
1940 + int(84.7) = 2024, where the claim's round-to-nearest reading demands
1940 + round(84.7) = 2025. -/
theorem death_draw_truncated :
    ((tick C3state).people.map Person.death_year) = [none, some 2024] ∧
    round (C3state.cfg.mortality_mean + C3state.cfg.mortality_sd * C3state.rng 0) = 85 ∧
    ¬ (2024 : Int) = 1940 + 85 := by
  refine ⟨?_, ?_, by decide⟩
  · with_unfolding_all decide
  · norm_num [C3state, initSim, defaultConfig, round_eq]

theorem tick_econ_lapse_or_death_witness :
    (W2person.status = Status.partner_active ∨ W2person.status = Status.partner_emeritus) ∧
    W2person.econ_rights_end_year = none ∧
    W2state.cfg.age_econ_rights_end ≤ W2state.year - W2person.birth_year ∧
    (∃ q, (tick W2state).people[0]? = some q ∧
      ((q.status = Status.deceased ∧ q.econ_rights_end_year = none) ∨
        ((q.status = Status.partner_active ∨ q.status = Status.partner_emeritus) ∧
          q.econ_rights_end_year = some W2state.year))) :=
  ⟨Or.inl rfl, rfl, by decide,
    tick_econ_lapse_or_death W2state 0 W2person rfl (Or.inl rfl) rfl (by decide)⟩

theorem tick_death_draw_trunc_witness :
    ¬ W3person.status = Status.deceased ∧
    W3person.death_year = none ∧
    (∃ q, (tick W3state).people[0]? = some q ∧
      q.death_year = some (W3person.birth_year +
        pyInt (W3state.cfg.mortality_mean +
          W3state.cfg.mortality_sd * W3state.rng (phase1IdxAt W3state.people W3state.idx 0)))) :=
  ⟨by decide, rfl, tick_death_draw_trunc W3state 0 W3person rfl (by decide) rfl⟩

theorem tick_deceased_frozen_witness :
    W4person.status = Status.deceased ∧ (tick W4state).people[0]? = some W4person :=
  ⟨rfl, tick_deceased_frozen W4state 0 W4person rfl rfl⟩

theorem death_year_immutable_witness :
    W5person.death_year = some 2100 ∧
    (∃ q, (runN 3 W5state).people[0]? = some q ∧ q.death_year = some 2100) :=
  ⟨rfl, death_year_immutable W5state 3 0 W5person 2100 rfl rfl⟩

theorem promotion_rule_witness :
    (phase4Person defaultConfig 2032 (fun _ => 0) 0 C6person).2 = 0 + 1 ∧
    (phase4Person defaultConfig 2032 (fun _ => 0) 0 C6person).1
      = { C6person with status := Status.partner_active, partner_since := some 2032 } := by
  have h := promotion_rule defaultConfig 2032 (fun _ => 0) 0 C6person rfl (by decide) (by decide)
  exact ⟨h.1, h.2.1 (by norm_num [defaultConfig])⟩

theorem birth_phase_children_witness :
    ∃ cs, (phase2 defaultConfig 2030 (fun _ => 0) [C7parent] 0 7).1 = [C7parent] ++ cs ∧
      (phase2 defaultConfig 2030 (fun _ => 0) [C7parent] 0 7).2.2 = 7 + cs.length ∧
      cs.map Person.id = List.range' 7 cs.length ∧
      ∀ c ∈ cs, ∃ parent, parent ∈ [C7parent] ∧
        (parent.status = Status.partner_active ∨ parent.status = Status.partner_emeritus) ∧
        ∃ j, c = (createChild defaultConfig 2030 (fun _ => 0) j c.id parent).1 :=
  birth_phase_children defaultConfig 2030 (fun _ => 0) [C7parent] 0 7

theorem run_history_spec_witness :
    (run (initSim W8cfg (fun _ => 1/2) [])).history
      = (List.range W8cfg.horizon_years).map
          (fun (k : Nat) => counts (W8cfg.start_year + (k : Int))
            ((runN (k + 1) (initSim W8cfg (fun _ => 1/2) [])).people)) ∧
    ((run (initSim W8cfg (fun _ => 1/2) [])).history).length = W8cfg.horizon_years ∧
    (∀ p : Person, isVote p
      = decide (p.status = Status.partner_active ∨ p.status = Status.partner_emeritus)) :=
  run_history_spec W8cfg (fun _ => 1/2) []

theorem run_deterministic_witness :
    (run (initSim defaultConfig (fun _ => 1/2) C1rows)).history
      = (run (initSim defaultConfig (fun _ => 1/2) C1rows)).history ∧
    (run (initSim defaultConfig (fun _ => 1/2) C1rows)).people
      = (run (initSim defaultConfig (fun _ => 1/2) C1rows)).people :=
  run_deterministic defaultConfig defaultConfig (fun _ => 1/2) (fun _ => 1/2)
    C1rows C1rows rfl rfl rfl

theorem trainee_past_window_frozen_witness :
    phase4Person W10state.cfg 2030 W10state.rng 5 W10person = (W10person, 5) ∧
    (runN 2 W10state).people[0]? = some W10person := by
  have h := trainee_past_window_frozen W10state 0 W10person 2100 rfl rfl (by decide) rfl
  exact ⟨h.1 5 2030 (by decide), h.2 2 (by decide)⟩
